import Mathlib

/-!
Verification of the Alsatian→German/Luxembourgish lexical-transformation
programs (`rule_based_transformations.py` and
`vocabulary_based_transformations_v2.py`) against their specification.

The two Python modules are shallowly embedded below.  Files are modelled as
`Option` of their content (`none` = missing file); Python exceptions are
modelled with `Except PyErr`; the external tokenizer and `textwrap.fill`
(peripheral collaborators per the spec) are passed in as function
parameters.  Rule files and vocabulary files are taken as already split
into rows/columns (the source splits each line on a tab).
-/

/-- Python runtime faults that the embedded code can raise. -/
inductive PyErr where
  | indexError
  | attributeError
  | fileNotFound
  | nameError
  deriving DecidableEq, Repr

/-- Ordered association-list lookup, mirroring a Python `dict` read. -/
def dictGet? {β : Type} : List (String × β) → String → Option β
  | [], _ => none
  | (k, v) :: rest, key => if k = key then some v else dictGet? rest key

/-- Python `d[k] = v`: overwrite in place if the key exists (its position is
kept), otherwise append at the end, as an insertion-ordered `dict` does. -/
def dictSet {β : Type} : List (String × β) → String → β → List (String × β)
  | [], k, v => [(k, v)]
  | (k', v') :: rest, k, v =>
    if k' = k then (k', v) :: rest else (k', v') :: dictSet rest k v

/-- `dictionary[target_link].add(link)` / `dictionary[target_link] = {link}`
from `create_dictionary`: add `link` to the set stored under `target_link`,
creating the entry if needed.  The Python `set` is modelled as a
duplicate-free list; `add` is a no-op when the element is present. -/
def dictAddLink : List (String × List String) → String → String → List (String × List String)
  | [], tgt, src => [(tgt, [src])]
  | (k, ls) :: rest, tgt, src =>
    if k = tgt then (k, if src ∈ ls then ls else ls ++ [src]) :: rest
    else (k, ls) :: dictAddLink rest tgt src

/-- Split a character list at every occurrence of `sep`, keeping empty
pieces, as Python `str.split(sep)` does for a one-character separator. -/
def splitCh (sep : Char) : List Char → List (List Char)
  | [] => [[]]
  | c :: cs =>
    match splitCh sep cs with
    | [] => [[c]]
    | g :: gs => if c = sep then [] :: g :: gs else (c :: g) :: gs

/-- Python `s.split(sep)` for a one-character separator. -/
def pySplit (sep : Char) (s : String) : List String :=
  (splitCh sep s.data).map String.mk

/-- Python `s.strip()`: drop whitespace from both ends. -/
def pyStrip (s : String) : String :=
  String.mk (((s.data.dropWhile Char.isWhitespace).reverse.dropWhile
    Char.isWhitespace).reverse)

/-- Python `' '.join(xs)`. -/
def pyJoin : List String → String
  | [] => ""
  | [x] => x
  | x :: y :: rest => x ++ " " ++ pyJoin (y :: rest)

/-- A concrete tokenizer instance used for witnesses/counterexamples: split
on single spaces and drop empty pieces.  The real tokenizer is an external
collaborator; theorems that depend on its output quantify over it or take
its output as a hypothesis. -/
def tokWS (s : String) : List String :=
  (pySplit ' ' s).filter (fun t => t ≠ "")

/-- The trailing-space trim shared by both `process_corpus` variants:

    if text[-2] == ' ': text = text[:-2] + text[-1]

Python's `text[-2]` raises `IndexError` when the string is shorter than
two characters; otherwise `text[:-2]` is all but the last two characters
and `text[-1]` is the last one. -/
def trimTrailing (s : String) : Except PyErr String :=
  if s.length < 2 then .error .indexError
  else if s.data.get? (s.length - 2) = some ' ' then
    .ok (String.mk (s.data.take (s.length - 2) ++ s.data.drop (s.length - 1)))
  else .ok s

/-- `token.lower()` (ASCII folding; the claims under study never depend on
non-ASCII case folding). -/
def strLower (s : String) : String := String.mk (s.data.map Char.toLower)

/-! ### Accent normalization (identical in both source files) -/

/-- `re.sub(r'[àáâ]', 'a', form)`, character-wise. -/
def subA (c : Char) : Char := if c = 'à' ∨ c = 'á' ∨ c = 'â' then 'a' else c

/-- `re.sub(r'[èê]', 'e', form)` (the é/ë line is commented out in the source). -/
def subE (c : Char) : Char := if c = 'è' ∨ c = 'ê' then 'e' else c

/-- `re.sub(r'[ìíîï]', 'i', form)`. -/
def subI (c : Char) : Char := if c = 'ì' ∨ c = 'í' ∨ c = 'î' ∨ c = 'ï' then 'i' else c

/-- `re.sub(r'[òóô]', 'o', form)`. -/
def subO (c : Char) : Char := if c = 'ò' ∨ c = 'ó' ∨ c = 'ô' then 'o' else c

/-- `re.sub(r'[ùúû]', 'u', form)`. -/
def subU (c : Char) : Char := if c = 'ù' ∨ c = 'ú' ∨ c = 'û' then 'u' else c

/-- `re.sub(r'[ÀÁÂ]', 'A', form)`. -/
def subAU (c : Char) : Char := if c = 'À' ∨ c = 'Á' ∨ c = 'Â' then 'A' else c

/-- `re.sub(r'[ÈÊ]', 'E', form)` (the É/Ë line is commented out in the source). -/
def subEU (c : Char) : Char := if c = 'È' ∨ c = 'Ê' then 'E' else c

/-- `re.sub(r'[ÌÍÎÏ]', 'I', form)`. -/
def subIU (c : Char) : Char := if c = 'Ì' ∨ c = 'Í' ∨ c = 'Î' ∨ c = 'Ï' then 'I' else c

/-- `re.sub(r'[ÒÓÔ]', 'O', form)`. -/
def subOU (c : Char) : Char := if c = 'Ò' ∨ c = 'Ó' ∨ c = 'Ô' then 'O' else c

/-- `re.sub(r'[ÙÚÛ]', 'U', form)`. -/
def subUU (c : Char) : Char := if c = 'Ù' ∨ c = 'Ú' ∨ c = 'Û' then 'U' else c

/-- `re.sub(r'[’‘]', "'", form)`. -/
def subQ (c : Char) : Char := if c = '’' ∨ c = '‘' then '\'' else c

/-- `normalize_accents`: the eleven `re.sub` calls applied in source order.
Each `re.sub` with a single character class is a character-wise map. -/
def normalize_accents (s : String) : String :=
  String.mk (List.map subQ (List.map subUU (List.map subOU (List.map subIU
    (List.map subEU (List.map subAU (List.map subU (List.map subO
      (List.map subI (List.map subE (List.map subA s.data)))))))))))

/-! ### Rule table builder (`create_dictionary`) -/

/-- The linked dictionary: target form ↦ the list of source-form alternatives
of its alternation pattern.  The source stores, for each key, a one-element
set holding the pattern string `'(' + '|'.join(alternatives) + ')'`
(see `mkPattern`); the list of alternatives is that pattern's content, kept
unjoined so that matching below can interpret it. -/
abbrev LinkedDict := List (String × List String)

/-- The pattern string the source builds from a set of links:
`r'(' + '|'.join(value) + ')'`. -/
def mkPattern (links : List String) : String :=
  "(" ++ String.intercalate "|" links ++ ")"

/-- `create_dictionary`, on the parsed rows `(link, target_link, nbr_cases)`
of the rule file (the source splits each line on tabs and applies `int`):
keep rows with `nbr_cases >= 10`, grouping links by target link. -/
def create_dictionary (rows : List (String × String × Int)) : LinkedDict :=
  rows.foldl
    (fun d r => if 10 ≤ r.2.2 then dictAddLink d r.2.1 r.1 else d) []

/-- `create_dictionary` together with its `try/except FileNotFoundError`
wrapper: a missing file (`none`) prints the not-found message (the `Bool`
records that a message was printed) and yields the empty table. -/
def createDictionaryRun : Option (List (String × String × Int)) → Bool × LinkedDict
  | none => (true, [])
  | some rows => (false, create_dictionary rows)

/-! ### Rule-based token transformation -/

/-- `re.search` of the alternation of the literal `alts` in `s`: scan
positions left to right; at each position try the alternatives in order and
return the first that matches there (Python alternation is leftmost-first,
not longest-match).  The end-of-string position is also tried, as `re.search`
does. -/
def searchAlt (alts : List String) : List Char → Option String
  | [] => alts.find? (fun a => List.isPrefixOf a.data [])
  | c :: cs =>
    match alts.find? (fun a => List.isPrefixOf a.data (c :: cs)) with
    | some a => some a
    | none => searchAlt alts cs

/-- `s.replace(old, new)` for a non-empty `old` (first character `o`, rest
`os`): replace every non-overlapping occurrence, left to right. -/
def replaceAllNE (o : Char) (os new : List Char) : List Char → List Char
  | [] => []
  | c :: cs =>
    if List.isPrefixOf (o :: os) (c :: cs)
    then new ++ replaceAllNE o os new (cs.drop os.length)
    else c :: replaceAllNE o os new cs
termination_by l => l.length
decreasing_by
  · simp only [List.length_drop, List.length_cons]
    omega
  · simp only [List.length_cons]
    omega

/-- Python `s.replace(old, new)`.  For an empty `old`, CPython inserts
`new` before every character and at the end (`"ab".replace("", "X") =
"XaXbX"`). -/
def strReplace (s old new : String) : String :=
  match old.data with
  | [] => String.mk (new.data ++ (s.data.map (fun c => c :: new.data)).flatten)
  | o :: os => String.mk (replaceAllNE o os new.data s.data)

/-- The per-token loop body of the rule-based `process_corpus`: for each
`(key, pattern)` entry of the linked dictionary in order, search the
(already modified) token for the pattern; on a match, replace every
occurrence of the matched substring by the key (`str.replace` is
replace-by-value). -/
def transformToken (d : LinkedDict) (token : String) : String :=
  d.foldl
    (fun t entry =>
      match searchAlt entry.2 t.data with
      | some m => strReplace t m entry.1
      | none => t)
    token

/-! ### Rule-based corpus transformer (`process_corpus` of
`rule_based_transformations.py`) -/

/-- One iteration of the per-line loop of the rule-based `process_corpus`.
`st` is the value of the Python variable `unaccented_tokens` left over from
the previous iteration (`none` before the first assignment): the variable is
only (re)assigned inside the per-token loop, so a line whose tokenization is
empty reuses the previous line's value — and raises `NameError` if there is
none yet.  The line is stripped, split on `;`, its second field tokenized,
each token transformed and accent-normalized, the tokens rejoined with
spaces and the trailing-space trim applied. -/
def lineStepRule (d : LinkedDict) (tok : String → List String)
    (st : Option (List String)) (l : String) :
    Except PyErr (String × List String) :=
  match (pySplit ';' (pyStrip l)).get? 1 with
  | none => .error .indexError
  | some text =>
    match tok text with
    | [] =>
      match st with
      | none => .error .nameError
      | some u =>
        match trimTrailing (pyJoin u) with
        | .error e => .error e
        | .ok w => .ok (w, u)
    | t :: ts =>
      let unaccented := ((t :: ts).map (transformToken d)).map normalize_accents
      match trimTrailing (pyJoin unaccented) with
      | .error e => .error e
      | .ok w => .ok (w, unaccented)

/-- The per-line loop of the rule-based `process_corpus`, threading the
leaked `unaccented_tokens` variable and the 1-based line counter.  Returns
the rows written so far (rows are written to the CSV as they are produced)
and the fault that stopped the run, if any. -/
def processRuleGo (d : LinkedDict) (tok : String → List String) :
    Option (List String) → Nat → List String → List (Nat × String) × Option PyErr
  | _, _, [] => ([], none)
  | st, i, l :: ls =>
    match lineStepRule d tok st l with
    | .error e => ([], some e)
    | .ok (w, st') =>
      let rest := processRuleGo d tok st' (i + 1) ls
      ((i, w) :: rest.1, rest.2)

namespace RuleBased

/-- `process_corpus` of `rule_based_transformations.py`: the corpus is the
list of its lines, the tokenizer is the external collaborator `tok`. -/
def process_corpus (d : LinkedDict) (tok : String → List String)
    (lines : List String) : List (Nat × String) × Option PyErr :=
  processRuleGo d tok none 1 lines

end RuleBased

/-! ### `difflib.SequenceMatcher.ratio` (no junk: `isjunk=None` and the
strings fed to it are far below the 200-character autojunk threshold) -/

/-- One row of `find_longest_match`'s dynamic program: `new[j]` is the
length of the longest common run ending at `a[i]`/`b[j]`
(`k = j2len.get(j-1, 0) + 1` for the `j` with `b[j] == a[i]`, else 0). -/
def flmRow (ai : Char) (b : List Char) (prev : List Nat) : List Nat :=
  List.zipWith (fun bj pl => if bj = ai then pl + 1 else 0) b (0 :: prev)

/-- Scan one row for a new best block: `j` ascends, and only a strictly
larger run length displaces the current best (`if k > bestsize`), so the
first maximal block in scan order is kept. -/
def flmBestInRow (i : Nat) (row : List Nat) (best : Nat × Nat × Nat) :
    Nat × Nat × Nat :=
  row.enum.foldl
    (fun b jk => if b.2.2 < jk.2 then (i + 1 - jk.2, jk.1 + 1 - jk.2, jk.2) else b)
    best

/-- `find_longest_match` over the whole of `a` and `b` (no junk): returns
`(i, j, size)` of the longest matching block, earliest in `a` then in `b`
on ties.  With no junk the trailing extension loops of the source are
no-ops. -/
def findLongestMatch (a b : List Char) : Nat × Nat × Nat :=
  (a.enum.foldl
    (fun (st : List Nat × (Nat × Nat × Nat)) ic =>
      let row := flmRow ic.2 b st.1
      (row, flmBestInRow ic.1 row st.2))
    (List.replicate b.length 0, (0, 0, 0))).2

/-- Total size of all matching blocks (`get_matching_blocks` recursion:
find the longest block, recurse on what lies left and right of it).  The
fuel argument only bounds the recursion depth; `a.length + b.length`
always suffices since each found block is non-empty. -/
def matchTotalGo : Nat → List Char → List Char → Nat
  | 0, _, _ => 0
  | fuel + 1, a, b =>
    match findLongestMatch a b with
    | (i, j, k) =>
      if k = 0 then 0
      else
        matchTotalGo fuel (a.take i) (b.take j) + k +
          matchTotalGo fuel (a.drop (i + k)) (b.drop (j + k))

/-- `sum(triple.size for triple in get_matching_blocks())`. -/
def matchTotal (a b : List Char) : Nat :=
  matchTotalGo (a.length + b.length) a b

/-- `SequenceMatcher(None, a, b).ratio() = 2.0 * M / T` with
`T = len(a) + len(b)` (and 1.0 when `T = 0`), as an exact rational
(`mkRat n d` is the rational `n / d`).  For the word-sized strings this
program compares, exact comparison of these rationals coincides with
CPython's float comparison. -/
def simRatio (a b : String) : Rat :=
  if a.length + b.length = 0 then 1
  else mkRat (2 * matchTotal a.data b.data) (a.length + b.length)

/-! ### Vocabulary table builder (`create_vocabulary`) -/

/-- The vocabulary: alsatian form ↦ (stored translation, POS tag). -/
abbrev Vocab := List (String × (String × String))

/-- The candidate-selection loop of `create_vocabulary`:

    trad = ''
    max_sim_ratio = 0.0
    for translation in translations_tab:
        sim_ratio = SequenceMatcher(None, aw, translation).ratio()
        if sim_ratio > max_sim_ratio:
            max_sim_ratio = sim_ratio
            trad = translation

Only a strictly larger ratio displaces the current candidate, and the
accumulator starts at `('', 0.0)`. -/
def chooseTrad (aw : String) (cands : List String) : String :=
  (cands.foldl
    (fun best c =>
      if best.2 < simRatio aw c then (c, simRatio aw c) else best)
    ("", (0 : Rat))).1

/-- The running maximum the loop above tracks (`max_sim_ratio` at the end). -/
def maxRatio (aw : String) (cands : List String) : Rat :=
  cands.foldl (fun m c => max m (simRatio aw c)) 0

/-- Modelled from the spec's words, for comparison with `chooseTrad`:
"retain the candidate with the maximum ratio (first-seen wins on exact
ties)" — the first candidate whose ratio equals the maximum. -/
def specFirstMaximalCandidate (aw : String) (cands : List String) : String :=
  (cands.find? (fun c => decide (simRatio aw c = maxRatio aw cands))).getD ""

/-- The per-row body of `create_vocabulary`: store, for each alsatian form
of the row, the selected translation and the POS tag (`columns[1]`);
`vocab_language[aw] = trad, columns[1]` is a plain dict write, so later
rows overwrite earlier ones.  (`translations_tab` comes from `split(';')`
and is therefore never empty, so the guarded `translations_tab[0]` branch
of the source is unreachable.) -/
def insertVocabRow (acc : Vocab) (alsatianWords transTab : List String)
    (pos : String) : Vocab :=
  alsatianWords.foldl (fun v aw => dictSet v aw (chooseTrad aw transTab, pos)) acc

/-- The per-line loop of `create_vocabulary`.  Each row is the tab-split
column list of a line.  `columns[2]` is read before the language test, so a
too-short row raises `IndexError` first; an unsupported language prints the
"not supported" message (the `Bool` of the result records that) and
returns `None` — modelled as `ok (true, none)`. -/
def createVocabGo (language : String) (acc : Vocab) :
    List (List String) → Except PyErr (Bool × Option Vocab)
  | [] => .ok (false, some acc)
  | row :: rest =>
    match row.get? 2 with
    | none => .error .indexError
    | some c2 =>
      if language = "de" then
        match row.get? 3 with
        | none => .error .indexError
        | some tr =>
          match row.get? 1 with
          | none => .error .indexError
          | some pos =>
            createVocabGo language
              (insertVocabRow acc (pySplit ';' c2) (pySplit ';' tr) pos) rest
      else if language = "ltz" then
        match row.get? 0 with
        | none => .error .indexError
        | some tr =>
          match row.get? 1 with
          | none => .error .indexError
          | some pos =>
            createVocabGo language
              (insertVocabRow acc (pySplit ';' c2) (pySplit ';' tr) pos) rest
      else .ok (true, none)

/-- `create_vocabulary` on the rows of an existing file. -/
def create_vocabulary (rows : List (List String)) (language : String) :
    Except PyErr (Bool × Option Vocab) :=
  createVocabGo language [] rows

/-- `create_vocabulary` including the `open` of the vocabulary file: the
function has no `try/except`, so a missing file raises
`FileNotFoundError`. -/
def createVocabularyRun (file : Option (List (List String))) (language : String) :
    Except PyErr (Bool × Option Vocab) :=
  match file with
  | none => .error .fileNotFound
  | some rows => create_vocabulary rows language

/-! ### Vocabulary-based corpus transformer -/

/-- `translate_token`: reads the module-global `vocab_language` (passed here
explicitly as `vocabGlobal`, since the embedding has no ambient state) and
returns `vocab_language.get(token.lower(), token)` — the stored tuple when
the key is present, the token itself otherwise.  When the global is `None`
(unsupported language), `None.get` raises `AttributeError`. -/
def translate_token (vocabGlobal : Option Vocab) (token : String) :
    Except PyErr ((String × String) ⊕ String) :=
  match vocabGlobal with
  | none => .error .attributeError
  | some v =>
    match dictGet? v (strLower token) with
    | some pair => .ok (.inl pair)
    | none => .ok (.inr token)

/-- The list comprehension
`[translate_token(token) for token in tokens]`: tokens are translated left
to right and the first raised exception propagates. -/
def translateList (vocabGlobal : Option Vocab) :
    List String → Except PyErr (List ((String × String) ⊕ String))
  | [] => .ok []
  | t :: ts =>
    match translate_token vocabGlobal t with
    | .error e => .error e
    | .ok r =>
      match translateList vocabGlobal ts with
      | .error e => .error e
      | .ok rs => .ok (r :: rs)

/-- One iteration of the per-line loop of the vocabulary-based
`process_corpus`: split the stripped line on `;`, tokenize the second
field, translate every token (a found translation — an `isinstance(_,
tuple)` result — is emitted verbatim, anything else is the
accent-normalized original token), rejoin with spaces, trim the presumed
trailing space, and wrap (`textwrap.fill`, the external `fill`
collaborator). -/
def lineStepVocab (vocabGlobal : Option Vocab) (tok : String → List String)
    (fill : String → String) (l : String) : Except PyErr String :=
  match (pySplit ';' (pyStrip l)).get? 1 with
  | none => .error .indexError
  | some text =>
    let tokens := tok text
    match translateList vocabGlobal tokens with
    | .error e => .error e
    | .ok translation =>
      let unaccented := (tokens.zip translation).map
        (fun p =>
          match p.2 with
          | .inl pr => pr.1
          | .inr _ => normalize_accents p.1)
      match trimTrailing (pyJoin unaccented) with
      | .error e => .error e
      | .ok trimmed => .ok (fill trimmed)

/-- The per-line loop of the vocabulary-based `process_corpus` with the
1-based line counter; rows are written as they are produced. -/
def processVocabGo (vocabGlobal : Option Vocab) (tok : String → List String)
    (fill : String → String) :
    Nat → List String → List (Nat × String) × Option PyErr
  | _, [] => ([], none)
  | i, l :: ls =>
    match lineStepVocab vocabGlobal tok fill l with
    | .error e => ([], some e)
    | .ok w =>
      let rest := processVocabGo vocabGlobal tok fill (i + 1) ls
      ((i, w) :: rest.1, rest.2)

namespace VocabBased

/-- `process_corpus` of `vocabulary_based_transformations_v2.py`.  Its
`vocab_language` parameter (`vocabParam`) is never used by the body: the
lookups inside `translate_token` go through the module global
(`vocabGlobal`). -/
def process_corpus (vocabGlobal : Option Vocab) (vocabParam : Option Vocab)
    (tok : String → List String) (fill : String → String)
    (lines : List String) : List (Nat × String) × Option PyErr :=
  processVocabGo vocabGlobal tok fill 1 lines

end VocabBased

/-! ### Helper lemmas for the accent normalizer -/

/-- The eleven character substitutions of `normalize_accents` composed in
source order. -/
def normChar (c : Char) : Char :=
  subQ (subUU (subOU (subIU (subEU (subAU (subU (subO (subI (subE (subA c))))))))))

/-- The replacement characters `normalize_accents` can produce. -/
def accTargets : List Char :=
  ['a', 'e', 'i', 'o', 'u', 'A', 'E', 'I', 'O', 'U', '\'']

lemma ite_char_case (P : Prop) [Decidable P] (t c : Char) (ht : t ∈ accTargets) :
    (if P then t else c) = c ∨ (if P then t else c) ∈ accTargets := by
  split
  · exact Or.inr ht
  · exact Or.inl rfl

lemma subA_case (c : Char) : subA c = c ∨ subA c ∈ accTargets :=
  ite_char_case _ 'a' c (by decide)

lemma subE_case (c : Char) : subE c = c ∨ subE c ∈ accTargets :=
  ite_char_case _ 'e' c (by decide)

lemma subI_case (c : Char) : subI c = c ∨ subI c ∈ accTargets :=
  ite_char_case _ 'i' c (by decide)

lemma subO_case (c : Char) : subO c = c ∨ subO c ∈ accTargets :=
  ite_char_case _ 'o' c (by decide)

lemma subU_case (c : Char) : subU c = c ∨ subU c ∈ accTargets :=
  ite_char_case _ 'u' c (by decide)

lemma subAU_case (c : Char) : subAU c = c ∨ subAU c ∈ accTargets :=
  ite_char_case _ 'A' c (by decide)

lemma subEU_case (c : Char) : subEU c = c ∨ subEU c ∈ accTargets :=
  ite_char_case _ 'E' c (by decide)

lemma subIU_case (c : Char) : subIU c = c ∨ subIU c ∈ accTargets :=
  ite_char_case _ 'I' c (by decide)

lemma subOU_case (c : Char) : subOU c = c ∨ subOU c ∈ accTargets :=
  ite_char_case _ 'O' c (by decide)

lemma subUU_case (c : Char) : subUU c = c ∨ subUU c ∈ accTargets :=
  ite_char_case _ 'U' c (by decide)

lemma subQ_case (c : Char) : subQ c = c ∨ subQ c ∈ accTargets :=
  ite_char_case _ '\'' c (by decide)

lemma comp_char_case {f g : Char → Char}
    (hf : ∀ c, f c = c ∨ f c ∈ accTargets)
    (hg : ∀ c, g c = c ∨ g c ∈ accTargets)
    (hgfix : ∀ t ∈ accTargets, g t = t) :
    ∀ c, g (f c) = c ∨ g (f c) ∈ accTargets := by
  intro c
  rcases hf c with h | h
  · rw [h]; exact hg c
  · rw [hgfix _ h]; exact Or.inr h

lemma subA_fix : ∀ t ∈ accTargets, subA t = t := by decide

lemma subE_fix : ∀ t ∈ accTargets, subE t = t := by decide

lemma subI_fix : ∀ t ∈ accTargets, subI t = t := by decide

lemma subO_fix : ∀ t ∈ accTargets, subO t = t := by decide

lemma subU_fix : ∀ t ∈ accTargets, subU t = t := by decide

lemma subAU_fix : ∀ t ∈ accTargets, subAU t = t := by decide

lemma subEU_fix : ∀ t ∈ accTargets, subEU t = t := by decide

lemma subIU_fix : ∀ t ∈ accTargets, subIU t = t := by decide

lemma subOU_fix : ∀ t ∈ accTargets, subOU t = t := by decide

lemma subUU_fix : ∀ t ∈ accTargets, subUU t = t := by decide

lemma subQ_fix : ∀ t ∈ accTargets, subQ t = t := by decide

/-- Every character is either untouched by `normChar` or mapped to one of
the fixed replacement characters. -/
lemma normChar_case (c : Char) : normChar c = c ∨ normChar c ∈ accTargets := by
  have h2 := comp_char_case subA_case subE_case subE_fix
  have h3 := comp_char_case h2 subI_case subI_fix
  have h4 := comp_char_case h3 subO_case subO_fix
  have h5 := comp_char_case h4 subU_case subU_fix
  have h6 := comp_char_case h5 subAU_case subAU_fix
  have h7 := comp_char_case h6 subEU_case subEU_fix
  have h8 := comp_char_case h7 subIU_case subIU_fix
  have h9 := comp_char_case h8 subOU_case subOU_fix
  have h10 := comp_char_case h9 subUU_case subUU_fix
  have h11 := comp_char_case h10 subQ_case subQ_fix
  exact h11 c

lemma normChar_fix : ∀ t ∈ accTargets, normChar t = t := by
  intro t ht
  unfold normChar
  rw [subA_fix t ht, subE_fix t ht, subI_fix t ht, subO_fix t ht, subU_fix t ht,
    subAU_fix t ht, subEU_fix t ht, subIU_fix t ht, subOU_fix t ht, subUU_fix t ht,
    subQ_fix t ht]

lemma normChar_idem (c : Char) : normChar (normChar c) = normChar c := by
  rcases normChar_case c with h | h
  · rw [h]; exact h
  · exact normChar_fix _ h

lemma normList_eq_map (l : List Char) :
    List.map subQ (List.map subUU (List.map subOU (List.map subIU
      (List.map subEU (List.map subAU (List.map subU (List.map subO
        (List.map subI (List.map subE (List.map subA l)))))))))) =
      l.map normChar := by
  induction l with
  | nil => simp only [List.map_nil]
  | cons c cs ih =>
    simp only [List.map_cons]
    rw [ih]
    rfl

/-- `normalize_accents` as a single character-wise map. -/
lemma normalize_accents_eq_map (s : String) :
    normalize_accents s = String.mk (s.data.map normChar) := by
  unfold normalize_accents
  rw [normList_eq_map]

lemma map_normChar_idem (l : List Char) :
    (l.map normChar).map normChar = l.map normChar := by
  induction l with
  | nil => rfl
  | cons c cs ih => simp [normChar_idem, ih]

/-- Claim C10: for every string `s`,
`normalize_accents (normalize_accents s) = normalize_accents s` — accent
normalization is idempotent. -/
theorem c10_normalize_accents_idempotent (s : String) :
    normalize_accents (normalize_accents s) = normalize_accents s := by
  calc normalize_accents (normalize_accents s)
      = String.mk ((normalize_accents s).data.map normChar) :=
        normalize_accents_eq_map _
    _ = String.mk ((s.data.map normChar).map normChar) := by
        rw [normalize_accents_eq_map]
    _ = String.mk (s.data.map normChar) := by rw [map_normChar_idem]
    _ = normalize_accents s := (normalize_accents_eq_map s).symm

/-- Claim C8: the trailing-space trim used by both corpus transformers
unconditionally reads the second-to-last character of the joined text: when
the text has length at least 2 and that character is a space, the result is
`text[:-2] + text[-1]`; when the text has length 0 or 1 the index access is
out of bounds, an unrecovered `IndexError`. -/
theorem c8_trailing_trim (s : String) :
    (s.length < 2 → trimTrailing s = .error .indexError) ∧
    (2 ≤ s.length → s.data.get? (s.length - 2) = some ' ' →
      trimTrailing s =
        .ok (String.mk (s.data.take (s.length - 2) ++ s.data.drop (s.length - 1)))) := by
  constructor
  · intro h
    unfold trimTrailing
    rw [if_pos h]
  · intro h2 hsp
    have hnot : ¬ s.length < 2 := not_lt.mpr h2
    unfold trimTrailing
    rw [if_neg hnot, if_pos hsp]

/-- Witness for C8: both branches at concrete strings. -/
theorem c8_witness :
    trimTrailing "x" = .error .indexError ∧ trimTrailing "a b" = .ok "ab" := by
  constructor
  · exact (c8_trailing_trim "x").1 (by decide)
  · have h := (c8_trailing_trim "a b").2 (by decide) (by decide)
    rw [h]
    rfl

/-- Claim C9: `translate_token` resolves translations through the
module-global `vocab_language` table (the `vocabGlobal` argument of the
embedding) rather than through any parameter, so the rows written by the
vocabulary-based `process_corpus` are identical across any two values of
its `vocab_language` parameter — the parameter has no effect. -/
theorem c9_vocab_parameter_unused (g p₁ p₂ : Option Vocab)
    (tok : String → List String) (fill : String → String)
    (lines : List String) :
    VocabBased.process_corpus g p₁ tok fill lines =
      VocabBased.process_corpus g p₂ tok fill lines := rfl

/-- Claim C5, counterexample: the claim says both table builders recover
from a missing file with an empty table and never abort, but
`create_vocabulary` has no handler — a missing vocabulary file raises
`FileNotFoundError` and aborts the run (only `create_dictionary` recovers,
printing the message and returning the empty table). -/
theorem c5_counterexample :
    createVocabularyRun none "de" = .error .fileNotFound ∧
    createDictionaryRun none = (true, []) := ⟨rfl, rfl⟩

/-- Claim C5, amended: when the table file is missing, the rule-based
`create_dictionary` prints a message and yields an empty table without
aborting, while the vocabulary-based `create_vocabulary` raises
`FileNotFoundError` (for every language selector) and the run aborts. -/
theorem c5_amended (language : String) :
    createDictionaryRun none = (true, ([] : LinkedDict)) ∧
    createVocabularyRun none language = .error .fileNotFound := ⟨rfl, rfl⟩

/-! ### Claim C1: unsupported language selector -/

/-- With the global vocabulary `None`, every path through a line of the
vocabulary-based per-line loop faults: a missing second field raises
`IndexError`; a line with at least one token raises `AttributeError` from
`None.get` inside `translate_token`; a line with no tokens joins to the
empty string, on which the trailing-space trim raises `IndexError`. -/
lemma lineStepVocab_global_none (tok : String → List String)
    (fill : String → String) (l : String) :
    ∃ e, lineStepVocab none tok fill l = .error e := by
  unfold lineStepVocab
  cases htext : (pySplit ';' (pyStrip l)).get? 1 with
  | none => exact ⟨.indexError, rfl⟩
  | some text =>
    cases ht : tok text with
    | nil =>
      refine ⟨.indexError, ?_⟩
      simp only [ht, translateList, trimTrailing, pyJoin]
      rfl
    | cons t ts =>
      refine ⟨.attributeError, ?_⟩
      simp only [ht, translateList, translate_token]

/-- Claim C1, counterexample: with the unsupported selector `"xx"`,
`create_vocabulary` prints the message and returns `None`, and the
subsequent corpus run on `"1;ab;"` does not complete with the
accent-normalized token — it writes no row and aborts with
`AttributeError` at the first token lookup. -/
theorem c1_counterexample :
    create_vocabulary [["no", "N", "uff", "no"]] "xx" = .ok (true, none) ∧
    VocabBased.process_corpus none none tokWS id ["1;ab;"] =
      ([], some PyErr.attributeError) := by
  constructor
  · rfl
  · rfl

/-- Claim C1, amended: if the language selector is neither `de` nor `ltz`,
`create_vocabulary` prints a message and returns `None` (given at least one
row, whose third column must exist); in the subsequent corpus run no token
lookup falls through to a not-found branch — on any non-empty corpus the
run writes no rows and aborts with a fault (`AttributeError` from
`None.get` on the first token lookup, or `IndexError`). -/
theorem c1_amended (language : String) (row : List String)
    (rest : List (List String)) (c2 : String) (p : Option Vocab)
    (tok : String → List String) (fill : String → String) (l : String)
    (ls : List String) (h1 : language ≠ "de") (h2 : language ≠ "ltz")
    (h3 : row.get? 2 = some c2) :
    create_vocabulary (row :: rest) language = .ok (true, none) ∧
    (VocabBased.process_corpus none p tok fill (l :: ls)).1 = [] ∧
    ((VocabBased.process_corpus none p tok fill (l :: ls)).2).isSome = true := by
  refine ⟨?_, ?_⟩
  · unfold create_vocabulary createVocabGo
    rw [h3]
    simp [h1, h2]
  · obtain ⟨e, he⟩ := lineStepVocab_global_none tok fill l
    unfold VocabBased.process_corpus processVocabGo
    rw [he]
    exact ⟨rfl, rfl⟩

/-- Witness for C1 (amended): concrete unsupported language and corpus. -/
theorem c1_witness :
    create_vocabulary [["no", "N", "uff", "no"]] "xx" = .ok (true, none) ∧
    (VocabBased.process_corpus none none tokWS id ["1;ab;"]).1 = [] ∧
    ((VocabBased.process_corpus none none tokWS id ["1;ab;"]).2).isSome = true :=
  c1_amended "xx" ["no", "N", "uff", "no"] [] "uff" none tokWS id "1;ab;" []
    (by decide) (by decide) rfl

/-! ### Claim C3: the `frai → frei` end-to-end scenario -/

/-- Claim C3, counterexample: with the rule row `('frai', 'frei', 15)` and
the corpus line `'001;Min Frai isch do;'`, for which the tokenizer yields
`['Min', 'Frai', 'isch', 'do']`, the rule-based `process_corpus` writes the
row `(1, 'Min Frai isch do')`, not the claimed `(1, 'Min frei isch do')`:
matching is case-sensitive and `'Frai'` does not contain `'frai'`. -/
theorem c3_counterexample :
    tokWS "Min Frai isch do" = ["Min", "Frai", "isch", "do"] ∧
    RuleBased.process_corpus (create_dictionary [("frai", "frei", 15)]) tokWS
      ["001;Min Frai isch do;"] = ([(1, "Min Frai isch do")], none) ∧
    "Min Frai isch do" ≠ "Min frei isch do" := by
  refine ⟨rfl, rfl, ?_⟩
  decide

/-- Claim C3, amended: for every tokenizer that yields
`['Min', 'Frai', 'isch', 'do']` on the text field, the output row is
`(1, 'Min Frai isch do')` — the case-sensitive rule `'frai' → 'frei'` does
not fire on `'Frai'`, which passes through unchanged. -/
theorem c3_amended (tok : String → List String)
    (htok : tok "Min Frai isch do" = ["Min", "Frai", "isch", "do"]) :
    RuleBased.process_corpus (create_dictionary [("frai", "frei", 15)]) tok
      ["001;Min Frai isch do;"] = ([(1, "Min Frai isch do")], none) := by
  have htext :
      (pySplit ';' (pyStrip "001;Min Frai isch do;")).get? 1 =
        some "Min Frai isch do" := rfl
  unfold RuleBased.process_corpus processRuleGo lineStepRule
  simp only [htext, htok]
  rfl

/-- Witness for C3 (amended): the concrete tokenizer. -/
theorem c3_witness :
    RuleBased.process_corpus (create_dictionary [("frai", "frei", 15)]) tokWS
      ["001;Min Frai isch do;"] = ([(1, "Min Frai isch do")], none) :=
  c3_amended tokWS rfl

/-! ### Claim C7: the `>= 10` occurrence threshold -/

/-- After `dictionary[tgt].add(src)` the link `src` is under the key `tgt`. -/
lemma dictAddLink_mem (d : LinkedDict) (tgt src : String) :
    src ∈ (dictGet? (dictAddLink d tgt src) tgt).getD [] := by
  induction d with
  | nil => simp [dictAddLink, dictGet?]
  | cons e rest ih =>
    obtain ⟨k, ls⟩ := e
    unfold dictAddLink
    by_cases hk : k = tgt
    · subst hk
      by_cases hs : src ∈ ls
      · simp [dictGet?, hs]
      · simp [dictGet?, hs]
    · simp [dictGet?, hk, ih]

/-- Adding another link never removes an existing membership. -/
lemma dictAddLink_preserve (d : LinkedDict) (tgt src t' s' : String)
    (h : src ∈ (dictGet? d tgt).getD []) :
    src ∈ (dictGet? (dictAddLink d t' s') tgt).getD [] := by
  induction d with
  | nil => simp [dictGet?] at h
  | cons e rest ih =>
    obtain ⟨k, ls⟩ := e
    unfold dictAddLink
    by_cases hk : k = t'
    · subst hk
      by_cases hkt : k = tgt
      · subst hkt
        simp [dictGet?] at h
        by_cases hs : s' ∈ ls
        · simp [dictGet?, hs, h]
        · simp [dictGet?, hs, List.mem_append, h]
      · simp [dictGet?, hkt] at h
        simp [dictGet?, hkt, h]
    · by_cases hkt : k = tgt
      · subst hkt
        simp [dictGet?] at h
        simp [hk, dictGet?, h]
      · simp [dictGet?, hkt] at h
        simp [hk, dictGet?, hkt, ih h]

/-- Folding further rule rows never removes an existing membership. -/
lemma create_dictionary_fold_preserve (rows : List (String × String × Int))
    (d : LinkedDict) (tgt src : String)
    (h : src ∈ (dictGet? d tgt).getD []) :
    src ∈ (dictGet?
      (rows.foldl
        (fun d r => if 10 ≤ r.2.2 then dictAddLink d r.2.1 r.1 else d) d)
      tgt).getD [] := by
  induction rows generalizing d with
  | nil => exact h
  | cons r rs ih =>
    simp only [List.foldl_cons]
    by_cases hn : 10 ≤ r.2.2
    · simp only [if_pos hn]
      exact ih _ (dictAddLink_preserve _ _ _ _ _ h)
    · simp only [if_neg hn]
      exact ih _ h

/-- Claim C7: a rule-file row `(src, tgt, n)` with `n >= 10` puts `src`
among the alternatives under the key `tgt` of the table built by
`create_dictionary`; a row with `n < 10` contributes nothing — deleting it
leaves the built table unchanged (strict threshold, silently dropped). -/
theorem c7_threshold (pre post : List (String × String × Int))
    (src tgt : String) (n : Int) :
    (10 ≤ n →
      src ∈ (dictGet? (create_dictionary (pre ++ (src, tgt, n) :: post)) tgt).getD []) ∧
    (n < 10 →
      create_dictionary (pre ++ (src, tgt, n) :: post) =
        create_dictionary (pre ++ post)) := by
  constructor
  · intro hn
    unfold create_dictionary
    rw [List.foldl_append, List.foldl_cons]
    simp only [if_pos hn]
    exact create_dictionary_fold_preserve _ _ _ _ (dictAddLink_mem _ _ _)
  · intro hn
    have hn' : ¬ 10 ≤ n := not_le.mpr hn
    unfold create_dictionary
    rw [List.foldl_append, List.foldl_cons, List.foldl_append]
    simp only [if_neg hn']

/-- Witness for C7: the spec's example rows `("e", "ä", 12)` (kept) and
`("e2", "ä", 5)` (dropped). -/
theorem c7_witness :
    "e" ∈ (dictGet? (create_dictionary [("e", "ä", 12)]) "ä").getD [] ∧
    create_dictionary [("e", "ä", 12), ("e2", "ä", 5)] =
      create_dictionary [("e", "ä", 12)] := by
  constructor
  · exact (c7_threshold [] [] "e" "ä" 12).1 (by decide)
  · exact (c7_threshold [("e", "ä", 12)] [] "e2" "ä" 5).2 (by decide)

/-! ### Claim C2: best-candidate selection in `create_vocabulary` -/

lemma le_foldl_max {α : Type} (f : α → Rat) (cs : List α) (m : Rat) :
    m ≤ cs.foldl (fun x c => max x (f c)) m := by
  induction cs generalizing m with
  | nil => exact le_refl m
  | cons c cs ih =>
    simp only [List.foldl_cons]
    exact le_trans (le_max_left m (f c)) (ih _)

lemma mem_le_foldl_max {α : Type} (f : α → Rat) (cs : List α) (c : α)
    (hc : c ∈ cs) (m : Rat) :
    f c ≤ cs.foldl (fun x c => max x (f c)) m := by
  induction cs generalizing m with
  | nil => cases hc
  | cons d ds ih =>
    simp only [List.foldl_cons]
    rcases List.mem_cons.mp hc with h | h
    · subst h
      exact le_trans (le_max_right m (f c)) (le_foldl_max f ds _)
    · exact ih h _

/-- If no candidate strictly beats the accumulator, the selection fold is
the identity. -/
lemma foldl_best_stay {α : Type} (f : α → Rat) (cs : List α) (b0 : α)
    (m0 : Rat) (h : ∀ c ∈ cs, f c ≤ m0) :
    cs.foldl (fun best c => if best.2 < f c then (c, f c) else best) (b0, m0) =
      (b0, m0) := by
  induction cs with
  | nil => rfl
  | cons c cs ih =>
    simp only [List.foldl_cons]
    rw [if_neg (not_lt.mpr (h c (List.mem_cons_self c cs)))]
    exact ih (fun c' hc' => h c' (List.mem_cons_of_mem _ hc'))

/-- When some candidate strictly beats the accumulator, the selection fold
picks the first candidate attaining the running maximum. -/
lemma foldl_best_first {α : Type} (f : α → Rat) (cs : List α) (b0 : α)
    (m0 : Rat) (h : m0 < cs.foldl (fun m c => max m (f c)) m0) :
    cs.find? (fun c => decide (f c = cs.foldl (fun m c => max m (f c)) m0)) =
      some ((cs.foldl
        (fun best c => if best.2 < f c then (c, f c) else best) (b0, m0)).1) := by
  induction cs generalizing b0 m0 with
  | nil => simp at h
  | cons c cs ih =>
    simp only [List.foldl_cons] at h ⊢
    by_cases hc : m0 < f c
    · have hmax : max m0 (f c) = f c := max_eq_right hc.le
      simp only [hmax] at h ⊢
      by_cases hM : f c < cs.foldl (fun m c => max m (f c)) (f c)
      · have hne : ¬ (f c = cs.foldl (fun m c => max m (f c)) (f c)) :=
          ne_of_lt hM
      -- head test fails, recurse with the new accumulator
        rw [List.find?_cons_of_neg _ (by simpa using hne), if_pos hc]
        exact ih c (f c) hM
      · have hM' : cs.foldl (fun m c => max m (f c)) (f c) = f c :=
          le_antisymm (not_lt.mp hM) (le_foldl_max f cs (f c))
        simp only [hM'] at h ⊢
        rw [if_pos hc]
        rw [List.find?_cons_of_pos _ (by simp)]
        have hstay :
            cs.foldl (fun best c => if best.2 < f c then (c, f c) else best)
              (c, f c) = (c, f c) :=
          foldl_best_stay f cs c (f c)
            (fun c' hc' => hM' ▸ mem_le_foldl_max f cs c' hc' (f c))
        rw [hstay]
    · have hmax : max m0 (f c) = m0 := max_eq_left (not_lt.mp hc)
      simp only [hmax] at h ⊢
      have hfc : ¬ (f c = cs.foldl (fun m c => max m (f c)) m0) :=
        ne_of_lt (lt_of_le_of_lt (not_lt.mp hc) h)
      rw [List.find?_cons_of_neg _ (by simpa using hfc), if_neg hc]
      exact ih b0 m0 h

/-- Claim C2, counterexample: in the row
`['no', 'N', 'uff', 'no;pq']` processed with language `de`, the alsatian
form `'uff'` has the two candidates `['no', 'pq']`, both with similarity
ratio 0; the stored translation is the loop's initial `''` — not a
candidate at all, hence not the first maximal candidate `'no'`. -/
theorem c2_counterexample :
    create_vocabulary [["no", "N", "uff", "no;pq"]] "de" =
      .ok (false, some [("uff", ("", "N"))]) ∧
    simRatio "uff" "no" = 0 ∧ simRatio "uff" "pq" = 0 ∧
    ¬ ("" ∈ ["no", "pq"]) := by
  refine ⟨rfl, by decide, by decide, by decide⟩

/-- Claim C2, amended: when the maximal similarity ratio over the
candidates is strictly positive, the stored translation is the first
candidate attaining it (first-seen wins on exact ties); when every
candidate has ratio 0 (in particular when no candidate shares a character
with the alsatian form), the stored translation is the empty string, which
need not be one of the candidates. -/
theorem c2_amended (aw : String) (cands : List String) :
    (0 < maxRatio aw cands →
      chooseTrad aw cands = specFirstMaximalCandidate aw cands) ∧
    (maxRatio aw cands = 0 → chooseTrad aw cands = "") := by
  constructor
  · intro h
    have hfind := foldl_best_first (simRatio aw) cands "" 0 h
    unfold specFirstMaximalCandidate maxRatio
    unfold maxRatio at hfind
    rw [hfind]
    rfl
  · intro h
    have hle : ∀ c ∈ cands, simRatio aw c ≤ 0 := by
      intro c hc
      have := mem_le_foldl_max (simRatio aw) cands c hc 0
      unfold maxRatio at h
      exact h ▸ this
    unfold chooseTrad
    rw [foldl_best_stay _ _ _ _ hle]

/-- Witness for C2 (amended): a positive-ratio case (`'uff'` vs
`['uff', 'x']`: the first candidate is an exact match) and an all-zero
case (`'uff'` vs `['no', 'pq']`). -/
theorem c2_witness :
    chooseTrad "uff" ["uff", "x"] = specFirstMaximalCandidate "uff" ["uff", "x"] ∧
    chooseTrad "uff" ["no", "pq"] = "" := by
  constructor
  · exact (c2_amended "uff" ["uff", "x"]).1 (by decide)
  · exact (c2_amended "uff" ["no", "pq"]).2 (by decide)

/-! ### Claim C6: per-line independence of the rule-based transformer -/

/-- When the tokenizer yields at least one token for a line's text field,
the line's processing does not depend on the `unaccented_tokens` value left
over from earlier lines (a missing text field faults identically either
way). -/
lemma lineStepRule_state_indep (d : LinkedDict) (tok : String → List String)
    (st₁ st₂ : Option (List String)) (l : String)
    (htok : ∀ t, (pySplit ';' (pyStrip l)).get? 1 = some t → tok t ≠ []) :
    lineStepRule d tok st₁ l = lineStepRule d tok st₂ l := by
  unfold lineStepRule
  cases htext : (pySplit ';' (pyStrip l)).get? 1 with
  | none => rfl
  | some text =>
    cases ht : tok text with
    | nil => exact absurd ht (htok text htext)
    | cons t ts => simp only [ht]

/-- If the run writes an `i`-th row, that row came from `lineStepRule` on
the `i`-th line (with some leftover state), and carries the ID `n + i`. -/
lemma processRuleGo_get? (d : LinkedDict) (tok : String → List String) :
    ∀ (L : List String) (st : Option (List String)) (n i : Nat) (l : String)
      (r : Nat × String),
      L.get? i = some l →
      (processRuleGo d tok st n L).1.get? i = some r →
      ∃ st' w u, lineStepRule d tok st' l = .ok (w, u) ∧ r = (n + i, w) := by
  intro L
  induction L with
  | nil =>
    intro st n i l r hL _
    simp at hL
  | cons l0 ls ih =>
    intro st n i l r hL hr
    cases hstep : lineStepRule d tok st l0 with
    | error e =>
      unfold processRuleGo at hr
      rw [hstep] at hr
      simp at hr
    | ok p =>
      obtain ⟨w0, st'⟩ := p
      unfold processRuleGo at hr
      rw [hstep] at hr
      cases i with
      | zero =>
        simp at hr hL
        refine ⟨st, w0, st', ?_, ?_⟩
        · rw [← hL]; exact hstep
        · rw [← hr]; simp
      | succ i' =>
        simp only [List.get?_cons_succ] at hL
        simp only [List.get?_cons_succ] at hr
        obtain ⟨st'', w, u, hs, hre⟩ := ih (some st') (n + 1) i' l r hL hr
        refine ⟨st'', w, u, hs, ?_⟩
        rw [hre]
        congr 1
        omega

/-- Claim C6, counterexample: the two corpora agree on line index 1
(`'2;;'`, an empty text field, zero tokens), yet the second output row of
each run reproduces the first line's tokens, which differ — the
`unaccented_tokens` container leaks across lines. -/
theorem c6_counterexample :
    ((["1;aa bb;", "2;;"] : List String).get? 1 =
      (["1;cc dd;", "2;;"] : List String).get? 1) ∧
    (RuleBased.process_corpus [] tokWS ["1;aa bb;", "2;;"]).1.get? 1 =
      some (2, "aa bb") ∧
    (RuleBased.process_corpus [] tokWS ["1;cc dd;", "2;;"]).1.get? 1 =
      some (2, "cc dd") ∧
    ((2, "aa bb") : Nat × String) ≠ (2, "cc dd") := by
  refine ⟨rfl, rfl, rfl, by decide⟩

/-- Claim C6, amended: the transformed text of output row `i` depends only
on line `i`'s own text field and the read-only table, provided the
tokenizer yields at least one token for that text: two runs on corpora
whose `i`-th lines agree then produce the same `i`-th row.  (For a line
with zero tokens the row instead reuses the token list carried over from
the previous line — the counterexample — and on line 1 such a line faults.) -/
theorem c6_amended (d : LinkedDict) (tok : String → List String)
    (L₁ L₂ : List String) (i : Nat) (l : String) (r₁ r₂ : Nat × String)
    (hl₁ : L₁.get? i = some l) (hl₂ : L₂.get? i = some l)
    (htok : ∀ t, (pySplit ';' (pyStrip l)).get? 1 = some t → tok t ≠ [])
    (hr₁ : (RuleBased.process_corpus d tok L₁).1.get? i = some r₁)
    (hr₂ : (RuleBased.process_corpus d tok L₂).1.get? i = some r₂) :
    r₁ = r₂ := by
  obtain ⟨st₁, w₁, u₁, hs₁, he₁⟩ :=
    processRuleGo_get? d tok L₁ none 1 i l r₁ hl₁ hr₁
  obtain ⟨st₂, w₂, u₂, hs₂, he₂⟩ :=
    processRuleGo_get? d tok L₂ none 1 i l r₂ hl₂ hr₂
  have hind := lineStepRule_state_indep d tok st₁ st₂ l htok
  rw [hs₁, hs₂] at hind
  simp only [Except.ok.injEq, Prod.mk.injEq] at hind
  rw [he₁, he₂, hind.1]

/-- Witness for C6 (amended): corpora that differ in line 0 but agree on
line 1, whose text `'bb'` has one token. -/
theorem c6_witness : ((2 : Nat), ("bb" : String)) = ((2 : Nat), ("bb" : String)) :=
  c6_amended [] tokWS ["1;aa;", "2;bb;"] ["9;zz;", "2;bb;"] 1 "2;bb;"
    (2, "bb") (2, "bb") rfl rfl
    (fun t ht => by injection ht with h; rw [← h]; decide) rfl rfl
